import Mathlib

/-!
Verification of the tabular statement-reading and transaction-normalization
pipeline of the finance-tracker repository.

Each Lean definition is a shallow embedding of one Python function of the
source tree (`src/`): PETL tables are lists of rows (lists of strings), typed
rows are structures, `decimal.Decimal` values are rationals, `datetime.date`
values are a Gregorian `Date` structure, and Python exceptions are modelled
with `Except`/`Option`.
-/

/-! ## String normalizer: `src/util/strings.py`, `remove_accents` -/

/-- One character of Python `str.lower()`, restricted to the alphabet the
normalizer touches: ASCII letters and the accented Latin vowels handled by
the substitutions below.  All other characters pass through unchanged. -/
def lowerChar (c : Char) : Char :=
  match c with
  | 'A' => 'a' | 'B' => 'b' | 'C' => 'c' | 'D' => 'd' | 'E' => 'e'
  | 'F' => 'f' | 'G' => 'g' | 'H' => 'h' | 'I' => 'i' | 'J' => 'j'
  | 'K' => 'k' | 'L' => 'l' | 'M' => 'm' | 'N' => 'n' | 'O' => 'o'
  | 'P' => 'p' | 'Q' => 'q' | 'R' => 'r' | 'S' => 's' | 'T' => 't'
  | 'U' => 'u' | 'V' => 'v' | 'W' => 'w' | 'X' => 'x' | 'Y' => 'y'
  | 'Z' => 'z'
  | 'À' => 'à' | 'Á' => 'á' | 'Â' => 'â' | 'Ã' => 'ã' | 'Ä' => 'ä'
  | 'Å' => 'å'
  | 'È' => 'è' | 'É' => 'é' | 'Ê' => 'ê' | 'Ë' => 'ë'
  | 'Ì' => 'ì' | 'Í' => 'í' | 'Î' => 'î' | 'Ï' => 'ï'
  | 'Ò' => 'ò' | 'Ó' => 'ó' | 'Ô' => 'ô' | 'Õ' => 'õ' | 'Ö' => 'ö'
  | 'Ù' => 'ù' | 'Ú' => 'ú' | 'Û' => 'û' | 'Ü' => 'ü'
  | other => other

/-- One `re.sub(r"[class]", base, ·)` pass, applied characterwise. -/
def foldClass (cls : List Char) (base : Char) (c : Char) : Char :=
  if c ∈ cls then base else c

def aClass : List Char := ['à', 'á', 'â', 'ã', 'ä', 'å']

def eClass : List Char := ['è', 'é', 'ê', 'ë']

def iClass : List Char := ['ì', 'í', 'î', 'ï']

def oClass : List Char := ['ò', 'ó', 'ô', 'õ', 'ö']

def uClass : List Char := ['ù', 'ú', 'û', 'ü']

/-- The five substitution passes of `remove_accents`, after lower-casing. -/
def foldAccents (c : Char) : Char :=
  foldClass uClass 'u'
    (foldClass oClass 'o'
      (foldClass iClass 'i'
        (foldClass eClass 'e'
          (foldClass aClass 'a' c))))

/-- Models `remove_accents(old)`: lower-case, then fold the five accent classes. -/
def remove_accents (old : String) : String :=
  let lowered := String.mk (old.data.map lowerChar)
  String.mk (lowered.data.map foldAccents)

/-- Lowercase ASCII letters: every character actually rewritten by
`remove_accents` ends up in this list. -/
def asciiLower : List Char :=
  ['a', 'b', 'c', 'd', 'e', 'f', 'g', 'h', 'i', 'j', 'k', 'l', 'm',
   'n', 'o', 'p', 'q', 'r', 's', 't', 'u', 'v', 'w', 'x', 'y', 'z']

lemma lowerChar_cases (c : Char) :
    lowerChar c = c ∨ lowerChar c ∈ asciiLower ∨
      lowerChar c ∈ aClass ++ eClass ++ iClass ++ oClass ++ uClass := by
  unfold lowerChar
  split
  all_goals first
    | (left; rfl)
    | (right; decide)

lemma foldAccents_cases (c : Char) :
    foldAccents c = c ∨ foldAccents c ∈ ['a', 'e', 'i', 'o', 'u'] := by
  unfold foldAccents foldClass
  by_cases ha : c ∈ aClass
  · rw [if_pos ha]; right; decide
  · rw [if_neg ha]
    by_cases he : c ∈ eClass
    · rw [if_pos he]; right; decide
    · rw [if_neg he]
      by_cases hi : c ∈ iClass
      · rw [if_pos hi]; right; decide
      · rw [if_neg hi]
        by_cases ho : c ∈ oClass
        · rw [if_pos ho]; right; decide
        · rw [if_neg ho]
          by_cases hu : c ∈ uClass
          · rw [if_pos hu]; right; decide
          · rw [if_neg hu]; left; rfl

lemma foldAccents_lowerChar_fixed_or_lower (c : Char) :
    foldAccents (lowerChar c) = c ∨ foldAccents (lowerChar c) ∈ asciiLower := by
  rcases lowerChar_cases c with h | h | h
  · rw [h]
    rcases foldAccents_cases c with h2 | h2
    · left; exact h2
    · right
      have hsub : ∀ x ∈ ['a', 'e', 'i', 'o', 'u'], x ∈ asciiLower := by decide
      exact hsub _ h2
  · right
    have hsub : ∀ x ∈ asciiLower, foldAccents x ∈ asciiLower := by decide
    exact hsub _ h
  · right
    have hsub : ∀ x ∈ aClass ++ eClass ++ iClass ++ oClass ++ uClass,
        foldAccents x ∈ asciiLower := by decide
    exact hsub _ h

lemma foldAccents_lowerChar_idem (c : Char) :
    foldAccents (lowerChar (foldAccents (lowerChar c))) =
      foldAccents (lowerChar c) := by
  rcases foldAccents_lowerChar_fixed_or_lower c with h | h
  · rw [h]
    exact h
  · have fix : ∀ x ∈ asciiLower, foldAccents (lowerChar x) = x := by decide
    exact fix _ h

/-- C10: `remove_accents` is idempotent: applying it twice equals applying it
once, where one application lower-cases and folds the known accented Latin
vowels to their base ASCII letter. -/
theorem remove_accents_idempotent (s : String) :
    remove_accents (remove_accents s) = remove_accents s := by
  apply String.ext
  show (((s.data.map lowerChar).map foldAccents).map lowerChar).map foldAccents
      = (s.data.map lowerChar).map foldAccents
  simp only [List.map_map]
  apply List.map_congr_left
  intro c _
  simp only [Function.comp_apply]
  exact foldAccents_lowerChar_idem c

/-! ## Table locator: `src/readers/csv_reader.py`,
`CSVReader.skip_until_main_table` and `CSVReader.extract_table_with_header` -/

/-- Models `all(i in list(r) for i in col_labels)`: the expected label set is a
subset of the row's cells (order-independent, extra columns tolerated). -/
def rowMatches (col_labels : List String) (r : List String) : Bool :=
  col_labels.all (fun i => r.contains i)

/-- The header-search loop of `skip_until_main_table`: iterate over all rows,
recording the index of each matching row in `skip` (so the last match
wins). -/
def lastMatchAux (col_labels : List String) :
    List (List String) → Nat → Option Nat → Option Nat
  | [], _, skip => skip
  | r :: rs, n, skip =>
      lastMatchAux col_labels rs (n + 1)
        (if rowMatches col_labels r then some n else skip)

/-- Index of the header row chosen by `skip_until_main_table`; `none` models
the `sys.exit(1)` path when the expected columns are never found. -/
def skipUntilMainTableIdx (col_labels : List String)
    (rows : List (List String)) : Option Nat :=
  lastMatchAux col_labels rows 0 none

/-- Reference form of "index of the last matching row", used only to reason
about the accumulator loop `lastMatchAux`. -/
def lastMatchSpec (col_labels : List String) : List (List String) → Option Nat
  | [] => none
  | r :: rs =>
      match lastMatchSpec col_labels rs with
      | some k => some (k + 1)
      | none => if rowMatches col_labels r then some 0 else none

lemma lastMatchAux_eq (col_labels : List String) :
    ∀ (rows : List (List String)) (n : Nat) (acc : Option Nat),
      lastMatchAux col_labels rows n acc =
        match lastMatchSpec col_labels rows with
        | some k => some (n + k)
        | none => acc := by
  intro rows
  induction rows with
  | nil => intro n acc; rfl
  | cons r rs ih =>
      intro n acc
      rw [lastMatchAux, ih, lastMatchSpec]
      rcases h : lastMatchSpec col_labels rs with _ | k
      · by_cases hm : rowMatches col_labels r <;> simp [hm]
      · simp only []
        congr 1
        omega

lemma lastMatchSpec_mem (col_labels : List String) :
    ∀ (rows : List (List String)) (k : Nat),
      lastMatchSpec col_labels rows = some k →
        ∃ rk, rows[k]? = some rk ∧ rowMatches col_labels rk = true := by
  intro rows
  induction rows with
  | nil => intro k h; simp [lastMatchSpec] at h
  | cons r rs ih =>
      intro k h
      rw [lastMatchSpec] at h
      rcases hs : lastMatchSpec col_labels rs with _ | m
      · rw [hs] at h
        by_cases hm : rowMatches col_labels r
        · simp [hm] at h
          subst h
          exact ⟨r, by simp, hm⟩
        · simp [hm] at h
      · rw [hs] at h
        simp only [Option.some.injEq] at h
        subst h
        rcases ih m hs with ⟨rk, h1, h2⟩
        exact ⟨rk, by simpa using h1, h2⟩

lemma lastMatchSpec_none (col_labels : List String) :
    ∀ (rows : List (List String)),
      lastMatchSpec col_labels rows = none →
        ∀ (m : Nat) (rm : List String), rows[m]? = some rm →
          ¬ rowMatches col_labels rm = true := by
  intro rows
  induction rows with
  | nil => intro _ m rm h; simp at h
  | cons r rs ih =>
      intro h m rm hget
      rw [lastMatchSpec] at h
      rcases hs : lastMatchSpec col_labels rs with _ | p
      · rw [hs] at h
        by_cases hm : rowMatches col_labels r
        · simp [hm] at h
        · match m with
          | 0 =>
              simp only [List.getElem?_cons_zero, Option.some.injEq] at hget
              subst hget
              exact hm
          | m + 1 =>
              simp only [List.getElem?_cons_succ] at hget
              exact ih hs m rm hget
      · rw [hs] at h
        simp at h

lemma lastMatchSpec_maximal (col_labels : List String) :
    ∀ (rows : List (List String)) (k : Nat),
      lastMatchSpec col_labels rows = some k →
        ∀ (m : Nat) (rm : List String), rows[m]? = some rm →
          rowMatches col_labels rm = true → m ≤ k := by
  intro rows
  induction rows with
  | nil => intro k h; simp [lastMatchSpec] at h
  | cons r rs ih =>
      intro k h m rm hget hmatch
      rw [lastMatchSpec] at h
      rcases hs : lastMatchSpec col_labels rs with _ | p
      · rw [hs] at h
        by_cases hm : rowMatches col_labels r
        · simp [hm] at h
          subst h
          match m with
          | 0 => exact le_refl 0
          | m + 1 =>
              exfalso
              simp only [List.getElem?_cons_succ] at hget
              rcases lastMatchSpec_none col_labels rs hs m rm hget with h2
              exact h2 hmatch
        · simp [hm] at h
      · rw [hs] at h
        simp only [Option.some.injEq] at h
        subst h
        match m with
        | 0 => exact Nat.zero_le _
        | m + 1 =>
            simp only [List.getElem?_cons_succ] at hget
            exact Nat.succ_le_succ (ih p hs m rm hget hmatch)

lemma lastMatchSpec_exists (col_labels : List String) :
    ∀ (rows : List (List String)) (j : Nat) (rj : List String),
      rows[j]? = some rj → rowMatches col_labels rj = true →
        ∃ k, lastMatchSpec col_labels rows = some k ∧ j ≤ k := by
  intro rows
  induction rows with
  | nil => intro j rj h; simp at h
  | cons r rs ih =>
      intro j rj hget hmatch
      rcases hs : lastMatchSpec col_labels rs with _ | p
      · match j with
        | 0 =>
            simp only [List.getElem?_cons_zero, Option.some.injEq] at hget
            subst hget
            refine ⟨0, ?_, le_refl 0⟩
            rw [lastMatchSpec, hs]
            simp [hmatch]
        | j + 1 =>
            simp only [List.getElem?_cons_succ] at hget
            rcases ih j rj hget hmatch with ⟨k, hk, _⟩
            rw [hs] at hk
            cases hk
      · match j with
        | 0 => exact ⟨p + 1, by rw [lastMatchSpec, hs], Nat.zero_le _⟩
        | j + 1 =>
            simp only [List.getElem?_cons_succ] at hget
            rcases ih j rj hget hmatch with ⟨k, hk, hjk⟩
            rw [hs] at hk
            have hpk : p = k := by injection hk
            exact ⟨p + 1, by rw [lastMatchSpec, hs], by omega⟩

/-- C4: when more than one line contains the full expected label set
(order-independent, extra columns tolerated), `skip_until_main_table`
selects the last matching line's index as the table start: the chosen index
is itself a match, is at least the later of the two given matches, and no
matching line lies after it. -/
theorem skip_until_main_table_last_match (col_labels : List String)
    (rows : List (List String)) (i j : Nat) (ri rj : List String)
    (hij : i < j)
    (hi : rows[i]? = some ri) (hmi : rowMatches col_labels ri = true)
    (hj : rows[j]? = some rj) (hmj : rowMatches col_labels rj = true) :
    ∃ k rk, skipUntilMainTableIdx col_labels rows = some k ∧ j ≤ k ∧
      rows[k]? = some rk ∧ rowMatches col_labels rk = true ∧
      ∀ (m : Nat) (rm : List String), rows[m]? = some rm →
        rowMatches col_labels rm = true → m ≤ k := by
  rcases lastMatchSpec_exists col_labels rows j rj hj hmj with ⟨k, hk, hjk⟩
  rcases lastMatchSpec_mem col_labels rows k hk with ⟨rk, hget, hmatch⟩
  refine ⟨k, rk, ?_, hjk, hget, hmatch, ?_⟩
  · unfold skipUntilMainTableIdx
    rw [lastMatchAux_eq, hk]
    simp
  · exact lastMatchSpec_maximal col_labels rows k hk

/-- Witness for C4 at a concrete input: a metadata line echoing the labels at
index 0 and the real header at index 2; the locator picks index 2. -/
theorem skip_until_main_table_last_match_witness :
    ∃ k rk,
      skipUntilMainTableIdx ["Date", "Amount"]
        [["Date", "Amount", "meta"], ["junk"], ["Date", "Amount"]] = some k ∧
      2 ≤ k ∧
      [["Date", "Amount", "meta"], ["junk"], ["Date", "Amount"]][k]? = some rk ∧
      rowMatches ["Date", "Amount"] rk = true ∧
      ∀ (m : Nat) (rm : List String),
        [["Date", "Amount", "meta"], ["junk"], ["Date", "Amount"]][m]? = some rm →
        rowMatches ["Date", "Amount"] rm = true → m ≤ k :=
  skip_until_main_table_last_match ["Date", "Amount"]
    [["Date", "Amount", "meta"], ["junk"], ["Date", "Amount"]]
    0 2 ["Date", "Amount", "meta"] ["Date", "Amount"]
    (by decide) (by decide) (by decide) (by decide) (by decide)

/-- Models `if not r or all(i == "" for i in r)`: a row is blank when every cell is
the empty string (vacuously true for a row with no cells). -/
def isBlankRow (r : List String) : Bool :=
  r.all (fun i => i == "")

/-- The footer scan of `extract_table_with_header`: index of the first blank
row in the iterated table (header row included, at index 0). -/
def firstBlankAux : List (List String) → Nat → Option Nat
  | [], _ => none
  | r :: rs, n => if isBlankRow r then some n else firstBlankAux rs (n + 1)

/-- Models `extract_table_with_header`, after the header has been located: the
iterated table is `header :: data`; `nrows` starts at the table length and is
set to `n - 1` at the first blank row (enumerate index `n`); `head(nrows)`
keeps the first `nrows` data rows. -/
def extractTableWithHeader (header : List String)
    (data : List (List String)) : List (List String) :=
  let nrows : Int :=
    match firstBlankAux (header :: data) 0 with
    | some n => (n : Int) - 1
    | none => ((header :: data).length : Int)
  data.take nrows.toNat

lemma firstBlankAux_shift (rows : List (List String)) :
    ∀ n : Nat, firstBlankAux rows n = (firstBlankAux rows 0).map (n + ·) := by
  induction rows with
  | nil => intro n; rfl
  | cons r rs ih =>
      intro n
      rw [firstBlankAux, firstBlankAux]
      by_cases h : isBlankRow r
      · simp [h]
      · rw [if_neg h, if_neg h, ih (n + 1), ih 1, Option.map_map]
        cases firstBlankAux rs 0 with
        | none => rfl
        | some k =>
            simp only [Option.map_some', Option.some.injEq, Function.comp_apply]
            omega

lemma firstBlank_none_take (rows : List (List String)) :
    firstBlankAux rows 0 = none →
      rows.takeWhile (fun r => !isBlankRow r) = rows := by
  induction rows with
  | nil => intro _; rfl
  | cons r rs ih =>
      intro h
      rw [firstBlankAux] at h
      by_cases hb : isBlankRow r
      · rw [if_pos hb] at h; cases h
      · rw [if_neg hb, firstBlankAux_shift rs 1] at h
        rw [List.takeWhile_cons]
        simp only [hb, Bool.not_false, if_true]
        rw [ih (by simpa using h)]

lemma firstBlank_some_take (rows : List (List String)) :
    ∀ k : Nat, firstBlankAux rows 0 = some k →
      rows.take k = rows.takeWhile (fun r => !isBlankRow r) := by
  induction rows with
  | nil => intro k h; cases h
  | cons r rs ih =>
      intro k h
      rw [firstBlankAux] at h
      by_cases hb : isBlankRow r
      · rw [if_pos hb] at h
        injection h with h
        subst h
        simp [List.takeWhile_cons, hb]
      · rw [if_neg hb, firstBlankAux_shift rs 1] at h
        cases hs : firstBlankAux rs 0 with
        | none => rw [hs] at h; cases h
        | some m =>
            rw [hs] at h
            simp only [Option.map_some', Option.some.injEq] at h
            subst h
            rw [List.takeWhile_cons]
            simp only [hb, Bool.not_false, if_true]
            rw [show 1 + m = m + 1 by omega, List.take_succ_cons, ih m hs]

/-- C5: footer trimming truncates the located table at the first row after
the header whose cells are all empty, keeping exactly the data rows strictly
before it; with no blank row, every row through end-of-file is kept.  (The
located header row itself is never blank, since it contains the expected
labels.) -/
theorem extract_table_trims_at_first_blank (header : List String)
    (data : List (List String)) (hheader : isBlankRow header = false) :
    extractTableWithHeader header data =
      data.takeWhile (fun r => !isBlankRow r) := by
  unfold extractTableWithHeader
  rw [firstBlankAux, if_neg (by simp [hheader]), firstBlankAux_shift data 1]
  cases hs : firstBlankAux data 0 with
  | none =>
      simp only [Option.map_none']
      rw [firstBlank_none_take data hs]
      apply List.take_of_length_le
      simp
  | some k =>
      simp only [Option.map_some']
      have hk : (((1 + k : Nat) : Int) - 1).toNat = k := by omega
      rw [hk, firstBlank_some_take data k hs]

/-- Witness for C5 at a concrete input: a data region, then one blank line,
then trailing junk; only the rows strictly before the blank line remain. -/
theorem extract_table_trims_at_first_blank_witness :
    extractTableWithHeader ["Date", "Amount"]
        [["01/03/2024", "5"], ["02/03/2024", "7"], ["", ""], ["junk", "x"]] =
      [["01/03/2024", "5"], ["02/03/2024", "7"]] := by
  rw [extract_table_trims_at_first_blank ["Date", "Amount"]
    [["01/03/2024", "5"], ["02/03/2024", "7"], ["", ""], ["junk", "x"]]
    (by decide)]
  decide

/-! ## Dates: shallow model of Python `datetime.date` with
`timedelta(days=1)` arithmetic (proleptic Gregorian calendar) -/

structure Date where
  year : Nat
  month : Nat
  day : Nat
deriving DecidableEq, Repr, Inhabited

def isLeapYear (y : Nat) : Bool :=
  (y % 4 == 0 && y % 100 != 0) || y % 400 == 0

def daysInMonth (y m : Nat) : Nat :=
  if m = 2 then (if isLeapYear y then 29 else 28)
  else if m = 4 ∨ m = 6 ∨ m = 9 ∨ m = 11 then 30
  else 31

/-- Models `d + datetime.timedelta(days=1)`. -/
def nextDay (d : Date) : Date :=
  if d.day < daysInMonth d.year d.month then ⟨d.year, d.month, d.day + 1⟩
  else if d.month < 12 then ⟨d.year, d.month + 1, 1⟩
  else ⟨d.year + 1, 1, 1⟩

/-- Models `d - datetime.timedelta(days=1)`. -/
def prevDay (d : Date) : Date :=
  if 1 < d.day then ⟨d.year, d.month, d.day - 1⟩
  else if 1 < d.month then ⟨d.year, d.month - 1, daysInMonth d.year (d.month - 1)⟩
  else ⟨d.year - 1, 12, 31⟩

/-- Models `d - datetime.timedelta(days=n)`. -/
def subDays : Date → Nat → Date
  | d, 0 => d
  | d, n + 1 => subDays (prevDay d) n

/-- Python date comparison: lexicographic on (year, month, day). -/
def dateLe (a b : Date) : Prop :=
  a.year < b.year ∨
    (a.year = b.year ∧
      (a.month < b.month ∨ (a.month = b.month ∧ a.day ≤ b.day)))

instance (a b : Date) : Decidable (dateLe a b) :=
  inferInstanceAs (Decidable (_ ∨ _))

def dateLt (a b : Date) : Prop := ¬ dateLe b a

instance (a b : Date) : Decidable (dateLt a b) :=
  inferInstanceAs (Decidable (¬ _))

lemma dateLe_refl (a : Date) : dateLe a a := by
  unfold dateLe; omega

lemma dateLe_trans {a b c : Date} (h1 : dateLe a b) (h2 : dateLe b c) :
    dateLe a c := by
  unfold dateLe at *; omega

lemma dateLt_le {a b : Date} (h : dateLt a b) : dateLe a b := by
  unfold dateLt dateLe at *; omega

lemma not_dateLt_le {a b : Date} (h : ¬ dateLt a b) : dateLe b a := by
  unfold dateLt dateLe at *; omega

lemma dateLe_dateLt_trans {a b c : Date} (h1 : dateLe a b) (h2 : dateLt b c) :
    dateLt a c := by
  unfold dateLt dateLe at *; omega

lemma dateLt_nextDay (d : Date) : dateLt d (nextDay d) := by
  unfold dateLt dateLe nextDay
  split_ifs <;> dsimp only <;> omega

lemma dateLe_nextDay_lt {a b : Date} (h : dateLe a b) :
    dateLt a (nextDay b) :=
  dateLe_dateLt_trans h (dateLt_nextDay b)

/-- Python `max` over a nonempty sequence: start from the first element and
replace the running value whenever a strictly larger one appears. -/
def pyMaxDate (d : Date) (ds : List Date) : Date :=
  ds.foldl (fun r x => if dateLt r x then x else r) d

lemma pyMaxDate_le_init (d : Date) (ds : List Date) :
    dateLe d (pyMaxDate d ds) := by
  induction ds generalizing d with
  | nil => exact dateLe_refl d
  | cons x xs ih =>
      show dateLe d (pyMaxDate (if dateLt d x then x else d) xs)
      by_cases h : dateLt d x
      · rw [if_pos h]
        exact dateLe_trans (dateLt_le h) (ih x)
      · rw [if_neg h]
        exact ih d

lemma pyMaxDate_mem_le (d : Date) (ds : List Date) :
    ∀ x ∈ ds, dateLe x (pyMaxDate d ds) := by
  induction ds generalizing d with
  | nil => intro x hx; cases hx
  | cons y ys ih =>
      intro x hx
      show dateLe x (pyMaxDate (if dateLt d y then y else d) ys)
      rcases List.mem_cons.mp hx with h | h
      · subst h
        by_cases hd : dateLt d x
        · rw [if_pos hd]
          exact pyMaxDate_le_init x ys
        · rw [if_neg hd]
          exact dateLe_trans (not_dateLt_le hd) (pyMaxDate_le_init d ys)
      · exact ih _ x h

lemma pyMaxDate_mem (d : Date) (ds : List Date) :
    pyMaxDate d ds = d ∨ pyMaxDate d ds ∈ ds := by
  induction ds generalizing d with
  | nil => left; rfl
  | cons y ys ih =>
      have hstep : pyMaxDate d (y :: ys) =
          pyMaxDate (if dateLt d y then y else d) ys := rfl
      rw [hstep]
      by_cases h : dateLt d y
      · rw [if_pos h]
        rcases ih y with h2 | h2
        · right; rw [h2]; exact List.mem_cons_self y ys
        · right; exact List.mem_cons_of_mem y h2
      · rw [if_neg h]
        rcases ih d with h2 | h2
        · left; exact h2
        · right; exact List.mem_cons_of_mem y h2

/-! ## Typed transaction rows and the CSV reader pipeline:
`src/readers/csv_reader.py` -/

/-- A typed transaction row as the CSV reader's `namedtuples()` yields it to
the transaction builder.  Optional fields model columns that a given source
may not have (`getattr`/`hasattr` probes in the source). -/
structure OTRow where
  date : Date
  tradeDate : Option Date
  type : Option String
  payee : String
  amount : Option Rat
  currency : Option String
  foreignAmount : Option Rat
  foreignCurrency : Option String
deriving DecidableEq, Repr

/-- The fields of `CSVReaderOptions` read by the operations embedded here
(the remaining fields configure I/O stages outside this model). -/
structure CSVReaderOptions where
  skip_transaction_types : List String
  transaction_type_map : List (String × String)
deriving DecidableEq, Repr

/-- PETL dict conversion, as used for the `type` column: values present in
the mapping are replaced, all others pass through unchanged. -/
def remapType (m : List (String × String)) (raw : String) : String :=
  (m.lookup raw).getD raw

/-- The `type` branch of `CSVReader.convert_columns`: applied only when the
table has a `type` column. -/
def convertTypeColumn (m : List (String × String)) (r : OTRow) : OTRow :=
  { r with type := r.type.map (remapType m) }

/-- Models `CSVReader.skip_transaction`: the row's (post-conversion) `type`, or
`"NO_TYPE"` when absent, is looked up in the skip list. -/
def skip_transaction (skip : List String) (r : OTRow) : Bool :=
  skip.contains (r.type.getD "NO_TYPE")

/-- Models `CSVReader.get_transactions` over the processed table (`read_file` has
already applied `convert_columns`): yield every row whose type is not in the
skip list. -/
def get_transactions (opts : CSVReaderOptions) (rows : List OTRow) :
    List OTRow :=
  (rows.map (convertTypeColumn opts.transaction_type_map)).filter
    (fun r => !(skip_transaction opts.skip_transaction_types r))

/-- C3: a typed row is excluded from `get_transactions` iff its normalized
(post-remap) type is in the skip list; a row whose type is in the skip list
(such as "General Authorization - Pending") yields zero output rows; a row
whose type is absent from the remap table keeps that type unchanged and, if
it is not in the skip list, passes through unfiltered. -/
theorem skip_list_filters_post_remap (opts : CSVReaderOptions) (r : OTRow) :
    (get_transactions opts [r] =
      if (convertTypeColumn opts.transaction_type_map r).type.getD "NO_TYPE"
          ∈ opts.skip_transaction_types
        then []
        else [convertTypeColumn opts.transaction_type_map r]) ∧
    (get_transactions opts [r] = [] ↔
      (convertTypeColumn opts.transaction_type_map r).type.getD "NO_TYPE"
          ∈ opts.skip_transaction_types) ∧
    (∀ t : String, r.type = some t →
      opts.transaction_type_map.lookup t = none →
      (convertTypeColumn opts.transaction_type_map r).type = some t) := by
  have hA : get_transactions opts [r] =
      if (convertTypeColumn opts.transaction_type_map r).type.getD "NO_TYPE"
          ∈ opts.skip_transaction_types
        then []
        else [convertTypeColumn opts.transaction_type_map r] := by
    unfold get_transactions skip_transaction
    by_cases h : (convertTypeColumn opts.transaction_type_map r).type.getD
        "NO_TYPE" ∈ opts.skip_transaction_types
    · rw [if_pos h]
      simp [h]
    · rw [if_neg h]
      simp [h]
  refine ⟨hA, ?_, ?_⟩
  · rw [hA]
    by_cases h : (convertTypeColumn opts.transaction_type_map r).type.getD
        "NO_TYPE" ∈ opts.skip_transaction_types
    · simp [h]
    · simp [h]
  · intro t ht hm
    unfold convertTypeColumn remapType
    simp [ht, hm]

/-- Witness for C3 at the PayPal configuration: a pending-authorization row
is dropped, while a row with an unmapped type outside the skip list passes
through with its type unchanged. -/
theorem skip_list_filters_post_remap_witness :
    get_transactions
        ⟨["General Authorization - Pending",
          "General Authorization - Completed"],
         [("Website Payment", "payment"),
          ("PreApproved Payment Bill User Payment", "payment"),
          ("Express Checkout Payment", "payment")]⟩
        [⟨⟨2024, 3, 1⟩, none, some "General Authorization - Pending",
          "Coffee Shop", none, some "EUR", none, none⟩] = [] ∧
    get_transactions
        ⟨["General Authorization - Pending",
          "General Authorization - Completed"],
         [("Website Payment", "payment"),
          ("PreApproved Payment Bill User Payment", "payment"),
          ("Express Checkout Payment", "payment")]⟩
        [⟨⟨2024, 3, 1⟩, none, some "Unknown Future Type",
          "Coffee Shop", none, some "EUR", none, none⟩] =
      [⟨⟨2024, 3, 1⟩, none, some "Unknown Future Type",
        "Coffee Shop", none, some "EUR", none, none⟩] := by
  constructor
  · exact (skip_list_filters_post_remap
      ⟨["General Authorization - Pending",
        "General Authorization - Completed"],
       [("Website Payment", "payment"),
        ("PreApproved Payment Bill User Payment", "payment"),
        ("Express Checkout Payment", "payment")]⟩
      ⟨⟨2024, 3, 1⟩, none, some "General Authorization - Pending",
        "Coffee Shop", none, some "EUR", none, none⟩).2.1.mpr (by decide)
  · rw [(skip_list_filters_post_remap
      ⟨["General Authorization - Pending",
        "General Authorization - Completed"],
       [("Website Payment", "payment"),
        ("PreApproved Payment Bill User Payment", "payment"),
        ("Express Checkout Payment", "payment")]⟩
      ⟨⟨2024, 3, 1⟩, none, some "Unknown Future Type",
        "Coffee Shop", none, some "EUR", none, none⟩).1]
    decide

/-- Models `ot.tradeDate if hasattr(ot, "tradeDate") else ot.date`. -/
def effective_date (r : OTRow) : Date :=
  r.tradeDate.getD r.date

/-- Models `CSVReader.get_max_transaction_date`: the maximum effective date over the
accepted (non-skipped) rows; `none` models the caught exception on an empty
sequence. -/
def get_max_transaction_date (opts : CSVReaderOptions) (rows : List OTRow) :
    Option Date :=
  match (get_transactions opts rows).map effective_date with
  | [] => none
  | d :: ds => some (pyMaxDate d ds)

/-- Models `CSVReader.get_balance_assertion_date`: one day after the latest
transaction date, or `None` when there is none. -/
def get_balance_assertion_date (opts : CSVReaderOptions)
    (rows : List OTRow) : Option Date :=
  match get_max_transaction_date opts rows with
  | none => none
  | some d => some (nextDay d)

/-- C6: for a processed table with at least one accepted (non-skipped) row,
`get_balance_assertion_date` returns the latest transaction date among
accepted rows plus exactly one day. -/
theorem balance_assertion_date_is_max_plus_one (opts : CSVReaderOptions)
    (rows : List OTRow) (hne : get_transactions opts rows ≠ []) :
    ∃ m : Date,
      get_max_transaction_date opts rows = some m ∧
      m ∈ (get_transactions opts rows).map effective_date ∧
      (∀ x ∈ (get_transactions opts rows).map effective_date, dateLe x m) ∧
      get_balance_assertion_date opts rows = some (nextDay m) := by
  rcases hl : (get_transactions opts rows).map effective_date with _ | ⟨d, ds⟩
  · exact absurd (List.map_eq_nil_iff.mp hl) hne
  · refine ⟨pyMaxDate d ds, ?_, ?_, ?_, ?_⟩
    · unfold get_max_transaction_date
      rw [hl]
    · rcases pyMaxDate_mem d ds with h | h
      · rw [h]; exact List.mem_cons_self d ds
      · exact List.mem_cons_of_mem d h
    · intro x hx
      rcases List.mem_cons.mp hx with h | h
      · subst h; exact pyMaxDate_le_init x ds
      · exact pyMaxDate_mem_le d ds x h
    · unfold get_balance_assertion_date get_max_transaction_date
      rw [hl]

/-- Witness for C6: a single accepted row dated 2024-03-10 yields a balance
assertion date of 2024-03-11. -/
theorem balance_assertion_date_is_max_plus_one_witness :
    (∃ m : Date,
      get_max_transaction_date ⟨[], []⟩
        [⟨⟨2024, 3, 10⟩, none, some "payment", "Coffee Shop", none,
          some "EUR", none, none⟩] = some m ∧
      m ∈ (get_transactions ⟨[], []⟩
        [⟨⟨2024, 3, 10⟩, none, some "payment", "Coffee Shop", none,
          some "EUR", none, none⟩]).map effective_date ∧
      (∀ x ∈ (get_transactions ⟨[], []⟩
        [⟨⟨2024, 3, 10⟩, none, some "payment", "Coffee Shop", none,
          some "EUR", none, none⟩]).map effective_date, dateLe x m) ∧
      get_balance_assertion_date ⟨[], []⟩
        [⟨⟨2024, 3, 10⟩, none, some "payment", "Coffee Shop", none,
          some "EUR", none, none⟩] = some (nextDay m)) ∧
    get_balance_assertion_date ⟨[], []⟩
        [⟨⟨2024, 3, 10⟩, none, some "payment", "Coffee Shop", none,
          some "EUR", none, none⟩] = some ⟨2024, 3, 11⟩ :=
  ⟨balance_assertion_date_is_max_plus_one ⟨[], []⟩
    [⟨⟨2024, 3, 10⟩, none, some "payment", "Coffee Shop", none,
      some "EUR", none, none⟩] (by decide), by decide⟩

/-! ## Transaction builder: `src/transactions/banking.py`
(`BankingImporter.extract`) and `src/transactions/common.py`
(`create_posting`) -/

namespace Banking

/-- Models `beancount.core.amount.Amount`: a number with a currency; either part may
be missing (beancount then treats the amount as to-be-inferred). -/
structure BcAmount where
  number : Option Rat
  currency : Option String
deriving DecidableEq, Repr

/-- Models `beancount.core.position.Cost` restricted to the two fields
`create_posting` fills (its `date` and `label` are always `None` here). -/
structure CostSpec where
  number : Option Rat
  currency : Option String
deriving DecidableEq, Repr

/-- Models `beancount.core.data.Posting` restricted to the fields `create_posting`
fills (`flag` and `meta` are always `None` here). -/
structure Posting where
  account : String
  units : BcAmount
  cost : Option CostSpec
  price : Option BcAmount
deriving DecidableEq, Repr

/-- Models `beancount.core.number.D` on the values `create_posting` passes it: a
`Decimal` is returned unchanged and `None` stays `None`. -/
def D (number : Option Rat) : Option Rat :=
  number

/-- Models `create_posting(entry, account, number, currency, amount_number,
amount_currency, is_price, is_cost)`: build the posting and append it to the
entry's posting list. -/
def create_posting (postings : List Posting) (account : String)
    (number : Option Rat) (currency : Option String)
    (amount_number : Option Rat) (amount_currency : Option String)
    ( is_price : Bool) ( is_cost : Bool) : List Posting :=
  let units : BcAmount := ⟨D number, currency⟩
  let amount : BcAmount := ⟨D amount_number, amount_currency⟩
  let cost : Option CostSpec :=
    if is_cost then some ⟨amount.number, amount.currency⟩ else none
  let price : Option BcAmount := if is_price then some units else none
  postings ++ [⟨account, units, cost, price⟩]

/-- The configuration keys of `BankingImporter` used by `extract`
(`config["main_account"]` and `config.get("target_account")`). -/
structure BankingConfig where
  main_account : String
  target_account : Option String
deriving DecidableEq, Repr

/-- Models `beancount.core.flags.FLAG_OKAY`. -/
def FLAG_OKAY : String := "*"

/-- Models `self.get_payee = lambda ot: ot.payee` (set in `__init__`). -/
def get_payee (ot : OTRow) : String := ot.payee

/-- Models `self.get_narration = lambda ot: ot.payee` (set in `__init__`). -/
def get_narration (ot : OTRow) : String := ot.payee

/-- Models `BankingImporter.get_main_account`. -/
def get_main_account (config : BankingConfig) (_ot : OTRow) : String :=
  config.main_account

/-- Models `BankingImporter.get_target_account` (`config.get("target_account")`). -/
def get_target_account (config : BankingConfig) (_ot : OTRow) :
    Option String :=
  config.target_account

/-- Models `BankingImporter.get_currency`: the row's `currency` attribute, falling
back to the reader's currency on `AttributeError`. -/
def get_currency (readerCurrency : String) (ot : OTRow) : String :=
  match ot.currency with
  | some c => c
  | none => readerCurrency

/-- Python truthiness of the optional `target_acct` string
(`if target_acct:`). -/
def pyTruthy (s : Option String) : Bool :=
  match s with
  | none => false
  | some v => !v.isEmpty

/-- Models `TransactionBuilder.skip_transaction`: the importer-level hook, which
always returns `False` (the reader's skip list has already been applied by
`get_transactions`). -/
def skipTransactionHook (_ot : OTRow) : Bool := false

/-- Models `beancount.core.data.Transaction` as `extract` builds it (metadata, which
carries only file/line bookkeeping and the filing account, is omitted). -/
structure BcTransaction where
  date : Date
  flag : String
  payee : String
  narration : String
  tags : List String
  links : List String
  postings : List Posting
deriving DecidableEq, Repr, Inhabited

/-- The per-row body of `BankingImporter.extract`: build the entry, post the
row's amount and currency against the main account, and, when a target
account is resolved (truthy), append an offsetting posting with no amount.
`add_custom_postings` is the default no-op hook. -/
def buildTransaction (config : BankingConfig) (readerCurrency : String)
    (ot : OTRow) : BcTransaction :=
  { date := ot.date
    flag := FLAG_OKAY
    payee := get_narration ot
    narration := get_payee ot
    tags := []
    links := []
    postings :=
      let afterMain := create_posting [] (get_main_account config ot)
        ot.amount (some (get_currency readerCurrency ot))
        ot.foreignAmount ot.foreignCurrency false false
      if pyTruthy (get_target_account config ot) then
        create_posting afterMain ((get_target_account config ot).getD "")
          none none none none false false
      else afterMain }

/-- The transaction-building loop of `BankingImporter.extract`
(banking.py:187-245), applied to the typed rows the reader yields: rows the
importer-level hook skips are dropped (it skips none), every other row
produces one transaction. -/
def extractTransactions (config : BankingConfig) (readerCurrency : String)
    (rows : List OTRow) : List BcTransaction :=
  (rows.filter (fun ot => !skipTransactionHook ot)).map
    (buildTransaction config readerCurrency)

lemma buildTransaction_postings (config : BankingConfig)
    (readerCurrency : String) (ot : OTRow) :
    (buildTransaction config readerCurrency ot).postings =
      if pyTruthy config.target_account then
        [⟨config.main_account,
            ⟨ot.amount, some (get_currency readerCurrency ot)⟩, none, none⟩,
         ⟨config.target_account.getD "", ⟨none, none⟩, none, none⟩]
      else
        [⟨config.main_account,
            ⟨ot.amount, some (get_currency readerCurrency ot)⟩, none, none⟩] := by
  unfold buildTransaction create_posting D get_main_account get_target_account
  by_cases h : pyTruthy config.target_account
  · simp [h]
  · simp [h]

end Banking

/-- C1: every transaction built by the extraction loop carries a first
posting to the configured main account whose amount is the row's signed
amount and whose currency is the row's `currency` field (with the reader's
currency as fallback when the row has none); exactly one additional
offsetting posting with an unspecified amount is appended when a target
account is resolved, so exactly one of the two postings has an unspecified
amount — never both — whenever the row's amount is present. -/
theorem extract_posting_invariant (config : Banking.BankingConfig)
    (readerCurrency : String) (rows : List OTRow)
    (entry : Banking.BcTransaction)
    (hentry : entry ∈ Banking.extractTransactions config readerCurrency rows) :
    ∃ ot ∈ rows, ∃ p0 : Banking.Posting,
      entry.postings.head? = some p0 ∧
      p0.account = config.main_account ∧
      p0.units.number = ot.amount ∧
      p0.units.currency = some (Banking.get_currency readerCurrency ot) ∧
      (∀ c : String, ot.currency = some c → p0.units.currency = some c) ∧
      (Banking.pyTruthy config.target_account = true →
        ∃ p1 : Banking.Posting, entry.postings = [p0, p1] ∧
          p1.account = config.target_account.getD "" ∧
          p1.units.number = none ∧ p1.units.currency = none) ∧
      (Banking.pyTruthy config.target_account = false →
        entry.postings = [p0]) ∧
      (ot.amount ≠ none →
        (entry.postings.filter (fun p => p.units.number.isNone)).length =
          if Banking.pyTruthy config.target_account then 1 else 0) := by
  unfold Banking.extractTransactions at hentry
  rcases List.mem_map.mp hentry with ⟨ot, hot, hbuild⟩
  have hrows : ot ∈ rows := (List.mem_filter.mp hot).1
  subst hbuild
  refine ⟨ot, hrows,
    ⟨config.main_account,
      ⟨ot.amount, some (Banking.get_currency readerCurrency ot)⟩,
      none, none⟩, ?_, rfl, rfl, rfl, ?_, ?_, ?_, ?_⟩
  · rw [Banking.buildTransaction_postings]
    by_cases h : Banking.pyTruthy config.target_account
    · rw [if_pos h]; rfl
    · rw [if_neg h]; rfl
  · intro c hc
    simp [Banking.get_currency, hc]
  · intro h
    rw [Banking.buildTransaction_postings, if_pos h]
    exact ⟨⟨config.target_account.getD "", ⟨none, none⟩, none, none⟩,
      rfl, rfl, rfl, rfl⟩
  · intro h
    rw [Banking.buildTransaction_postings, if_neg (by simp [h])]
  · intro hamount
    rcases ha : ot.amount with _ | q
    · exact absurd ha hamount
    · rw [Banking.buildTransaction_postings, ha]
      by_cases h : Banking.pyTruthy config.target_account
      · rw [if_pos h, if_pos h]
        simp [List.filter]
      · rw [if_neg h, if_neg h]
        simp [List.filter]

/-- Witness for C1: a single Revolut-style row with an amount of -3.50 EUR
and a configured target account produces a main posting carrying the amount
and one offsetting posting with no amount. -/
theorem extract_posting_invariant_witness :
    ∃ ot ∈ [(⟨⟨2024, 3, 1⟩, none, some "payment", "Coffee Shop",
        some (-7 / 2 : Rat), some "EUR", none, none⟩ : OTRow)],
      ∃ p0 : Banking.Posting,
      (Banking.buildTransaction
          ⟨"Assets:EU:Revolut:Checking", some "Expenses:Unknown"⟩ "EUR"
          ⟨⟨2024, 3, 1⟩, none, some "payment", "Coffee Shop",
            some (-7 / 2 : Rat), some "EUR", none, none⟩).postings.head?
        = some p0 ∧
      p0.account = "Assets:EU:Revolut:Checking" ∧
      p0.units.number = ot.amount ∧
      p0.units.currency = some (Banking.get_currency "EUR" ot) ∧
      (∀ c : String, ot.currency = some c → p0.units.currency = some c) ∧
      (Banking.pyTruthy (some "Expenses:Unknown") = true →
        ∃ p1 : Banking.Posting,
          (Banking.buildTransaction
            ⟨"Assets:EU:Revolut:Checking", some "Expenses:Unknown"⟩ "EUR"
            ⟨⟨2024, 3, 1⟩, none, some "payment", "Coffee Shop",
              some (-7 / 2 : Rat), some "EUR", none, none⟩).postings
            = [p0, p1] ∧
          p1.account = "Expenses:Unknown" ∧
          p1.units.number = none ∧ p1.units.currency = none) := by
  rcases extract_posting_invariant
      ⟨"Assets:EU:Revolut:Checking", some "Expenses:Unknown"⟩ "EUR"
      [⟨⟨2024, 3, 1⟩, none, some "payment", "Coffee Shop",
        some (-7 / 2 : Rat), some "EUR", none, none⟩]
      (Banking.buildTransaction
        ⟨"Assets:EU:Revolut:Checking", some "Expenses:Unknown"⟩ "EUR"
        ⟨⟨2024, 3, 1⟩, none, some "payment", "Coffee Shop",
          some (-7 / 2 : Rat), some "EUR", none, none⟩)
      (List.mem_singleton_self _)
    with ⟨ot, hot, p0, h1, h2, h3, h4, h5, h6, _h7, _h8⟩
  exact ⟨ot, hot, p0, h1, h2, h3, h4, h5, fun ht => h6 ht⟩

/-! ## Tag-structured reader: `src/readers/ofx_reader.py` -/

/-- The Python exceptions this embedding distinguishes. -/
inductive PyError
  | attributeError
  | keyError
  | valueError
deriving DecidableEq, Repr

namespace OFXReader

/-- One transaction of a parsed OFX statement, as `get_max_transaction_date`
reads it (`ot.tradeDate if hasattr(ot, "tradeDate") else ot.date`). -/
structure OFXTransaction where
  date : Date
  tradeDate : Option Date
deriving DecidableEq, Repr

/-- The date-bearing fields of `ofx_account.statement` probed by
`get_ofx_end_date`, plus the transaction list.  `none` models a missing
attribute (the `getattr(..., None)` default). -/
structure OFXStatement where
  end_date : Option Date
  available_balance_date : Option Date
  balance_date : Option Date
  transactions : List OFXTransaction
deriving DecidableEq, Repr

/-- The four keys of `strategy_map` in `get_balance_assertion_date`. -/
inductive DateStrategy
  | smart
  | ofx_date
  | last_transaction
  | today
deriving DecidableEq, Repr

/-- The two configuration keys `get_balance_assertion_date` and
`get_smart_date` read; `none` models an absent key, so
`config.get("balance_assertion_date_type", "smart")` becomes `getD .smart`
and `config.get("balance_assertion_date_fudge", 2)` becomes `getD 2`. -/
structure OFXConfig where
  balance_assertion_date_type : Option DateStrategy
  balance_assertion_date_fudge : Option Nat
deriving DecidableEq, Repr

/-- Models `OFXReader.get_ofx_end_date`: `getattr(self.ofx_account.statement, field,
None)`, with `.date()` stripping the time part (dates here carry none). -/
def get_ofx_end_date (stmt : OFXStatement) (field : String) : Option Date :=
  if field = "end_date" then stmt.end_date
  else if field = "available_balance_date" then stmt.available_balance_date
  else if field = "balance_date" then stmt.balance_date
  else none

/-- Models `OFXReader.get_max_transaction_date`: maximum transaction date, `None`
for an empty statement (the caught `ValueError`). -/
def get_max_transaction_date (stmt : OFXStatement) : Option Date :=
  match stmt.transactions.map (fun ot => ot.tradeDate.getD ot.date) with
  | [] => none
  | d :: ds => some (pyMaxDate d ds)

/-- Models `OFXReader._fudged_date`: fetch a statement date field and subtract the
fudge window. -/
def fudged_date (stmt : OFXStatement) (field : String) (fudge_days : Nat) :
    Option Date :=
  match get_ofx_end_date stmt field with
  | none => none
  | some d => some (subDays d fudge_days)

/-- Models `datetime.date.min`. -/
def dateMin : Date := ⟨1, 1, 1⟩

/-- The `safe` helper inside `get_smart_date`: `x if x else date.min`. -/
def safeDate : Option Date → Date
  | some x => x
  | none => dateMin

/-- Models `OFXReader.get_smart_date`: the maximum of statement end date, latest
transaction date, and the two fudged balance dates; `None` when both of the
first two are missing. -/
def get_smart_date (cfg : OFXConfig) (stmt : OFXStatement) : Option Date :=
  let fudge := cfg.balance_assertion_date_fudge.getD 2
  let dates : List (Option Date) :=
    [get_ofx_end_date stmt "end_date",
     get_max_transaction_date stmt,
     fudged_date stmt "available_balance_date" fudge,
     fudged_date stmt "balance_date" fudge]
  if (dates.take 2).all (fun d => d.isNone) then none
  else
    match dates.map safeDate with
    | [] => none
    | d :: ds => some (pyMaxDate d ds)

/-- Models `OFXReader.get_balance_assertion_date`: pick the configured strategy's
base date and add one day (`date + timedelta(days=1) if date else None`).
`todayDate` stands for `datetime.date.today()`. -/
def get_balance_assertion_date (cfg : OFXConfig) (stmt : OFXStatement)
    (todayDate : Date) : Option Date :=
  let date :=
    match cfg.balance_assertion_date_type.getD .smart with
    | .smart => get_smart_date cfg stmt
    | .ofx_date => get_ofx_end_date stmt "end_date"
    | .last_transaction => get_max_transaction_date stmt
    | .today => some todayDate
  match date with
  | some d => some (nextDay d)
  | none => none

end OFXReader

/-- C7 counterexample: under the "statement end date" strategy, a statement
whose provider-reported end date (2024-03-01) precedes its latest transaction
date (2024-03-10) gets a balance assertion dated 2024-03-02, which is not
strictly after the latest transaction date. -/
theorem ofx_date_strategy_not_after_last_transaction :
    OFXReader.get_balance_assertion_date
        ⟨some .ofx_date, none⟩
        ⟨some ⟨2024, 3, 1⟩, none, none, [⟨⟨2024, 3, 10⟩, none⟩]⟩
        ⟨2024, 3, 15⟩ = some ⟨2024, 3, 2⟩ ∧
    OFXReader.get_max_transaction_date
        ⟨some ⟨2024, 3, 1⟩, none, none, [⟨⟨2024, 3, 10⟩, none⟩]⟩ =
      some ⟨2024, 3, 10⟩ ∧
    ¬ dateLt (⟨2024, 3, 10⟩ : Date) ⟨2024, 3, 2⟩ := by
  refine ⟨rfl, rfl, ?_⟩
  decide

lemma get_balance_assertion_date_strategy_eq (cfg : OFXReader.OFXConfig)
    (stmt : OFXReader.OFXStatement) (todayDate : Date) :
    OFXReader.get_balance_assertion_date cfg stmt todayDate =
      match (match cfg.balance_assertion_date_type.getD .smart with
        | .smart => OFXReader.get_smart_date cfg stmt
        | .ofx_date => OFXReader.get_ofx_end_date stmt "end_date"
        | .last_transaction => OFXReader.get_max_transaction_date stmt
        | .today => some todayDate) with
      | some d => some (nextDay d)
      | none => none := rfl

lemma get_smart_date_after_max (cfg : OFXReader.OFXConfig)
    (stmt : OFXReader.OFXStatement) (t : Date)
    (hmax : OFXReader.get_max_transaction_date stmt = some t) :
    ∀ m : Date, OFXReader.get_smart_date cfg stmt = some m → dateLe t m := by
  intro m hm
  unfold OFXReader.get_smart_date at hm
  rw [hmax] at hm
  simp only [List.take, List.all_cons, List.all_nil, Option.isNone_some,
    Bool.and_false, Bool.false_and, Bool.and_self, if_false,
    Bool.false_eq_true, List.map_cons, List.map_nil] at hm
  simp only [Option.some.injEq] at hm
  subst hm
  exact pyMaxDate_mem_le _ _ t (by simp [OFXReader.safeDate])

/-- C7 amended: every strategy dates the assertion one day after its chosen
base date; under the "smart" and "last transaction date" strategies the
result is strictly after the latest transaction date, but under "statement
end date" it is the statement end date plus one day and under "today" it is
today plus one day, either of which may lie on or before the latest
transaction date. -/
theorem balance_assertion_strategy_offsets (cfg : OFXReader.OFXConfig)
    (stmt : OFXReader.OFXStatement) (todayDate : Date) (t : Date)
    (hmax : OFXReader.get_max_transaction_date stmt = some t) :
    ((cfg.balance_assertion_date_type.getD .smart = .smart ∨
      cfg.balance_assertion_date_type.getD .smart = .last_transaction) →
      ∀ a : Date,
        OFXReader.get_balance_assertion_date cfg stmt todayDate = some a →
        dateLt t a) ∧
    (cfg.balance_assertion_date_type.getD .smart = .last_transaction →
      OFXReader.get_balance_assertion_date cfg stmt todayDate =
        some (nextDay t)) ∧
    (cfg.balance_assertion_date_type.getD .smart = .ofx_date →
      OFXReader.get_balance_assertion_date cfg stmt todayDate =
        stmt.end_date.map nextDay) ∧
    (cfg.balance_assertion_date_type.getD .smart = .today →
      OFXReader.get_balance_assertion_date cfg stmt todayDate =
        some (nextDay todayDate)) := by
  refine ⟨?_, ?_, ?_, ?_⟩
  · rintro (hs | hs) a ha <;>
      rw [get_balance_assertion_date_strategy_eq, hs] at ha
    · rcases hsd : OFXReader.get_smart_date cfg stmt with _ | m
      · rw [hsd] at ha; cases ha
      · rw [hsd] at ha
        simp only [Option.some.injEq] at ha
        subst ha
        exact dateLe_nextDay_lt (get_smart_date_after_max cfg stmt t hmax m hsd)
    · rw [hmax] at ha
      simp only [Option.some.injEq] at ha
      subst ha
      exact dateLt_nextDay t
  · intro hs
    rw [get_balance_assertion_date_strategy_eq, hs, hmax]
  · intro hs
    rw [get_balance_assertion_date_strategy_eq, hs]
    show (match OFXReader.get_ofx_end_date stmt "end_date" with
      | some d => some (nextDay d)
      | none => none) = stmt.end_date.map nextDay
    have he : OFXReader.get_ofx_end_date stmt "end_date" = stmt.end_date := rfl
    rw [he]
    cases stmt.end_date <;> rfl
  · intro hs
    rw [get_balance_assertion_date_strategy_eq, hs]

/-- Witness for C7 (amended): on a statement whose transactions end at
2024-03-10, the smart strategy asserts strictly later than 2024-03-10, the
last-transaction strategy asserts exactly 2024-03-11, and the fixed
strategies add one day to their own base dates. -/
theorem balance_assertion_strategy_offsets_witness :
    ((((⟨some .smart, none⟩ : OFXReader.OFXConfig)
        |>.balance_assertion_date_type.getD .smart) = .smart ∨
      (((⟨some .smart, none⟩ : OFXReader.OFXConfig)
        |>.balance_assertion_date_type.getD .smart) = .last_transaction)) →
      ∀ a : Date,
        OFXReader.get_balance_assertion_date ⟨some .smart, none⟩
          ⟨some ⟨2024, 3, 1⟩, none, none, [⟨⟨2024, 3, 10⟩, none⟩]⟩
          ⟨2024, 3, 15⟩ = some a →
        dateLt ⟨2024, 3, 10⟩ a) ∧
    ((((⟨some .smart, none⟩ : OFXReader.OFXConfig)
        |>.balance_assertion_date_type.getD .smart) = .last_transaction) →
      OFXReader.get_balance_assertion_date ⟨some .smart, none⟩
        ⟨some ⟨2024, 3, 1⟩, none, none, [⟨⟨2024, 3, 10⟩, none⟩]⟩
        ⟨2024, 3, 15⟩ = some (nextDay ⟨2024, 3, 10⟩)) ∧
    ((((⟨some .smart, none⟩ : OFXReader.OFXConfig)
        |>.balance_assertion_date_type.getD .smart) = .ofx_date) →
      OFXReader.get_balance_assertion_date ⟨some .smart, none⟩
        ⟨some ⟨2024, 3, 1⟩, none, none, [⟨⟨2024, 3, 10⟩, none⟩]⟩
        ⟨2024, 3, 15⟩ =
        (⟨some ⟨2024, 3, 1⟩, none, none,
          [⟨⟨2024, 3, 10⟩, none⟩]⟩ : OFXReader.OFXStatement).end_date.map
            nextDay) ∧
    ((((⟨some .smart, none⟩ : OFXReader.OFXConfig)
        |>.balance_assertion_date_type.getD .smart) = .today) →
      OFXReader.get_balance_assertion_date ⟨some .smart, none⟩
        ⟨some ⟨2024, 3, 1⟩, none, none, [⟨⟨2024, 3, 10⟩, none⟩]⟩
        ⟨2024, 3, 15⟩ = some (nextDay ⟨2024, 3, 15⟩)) :=
  balance_assertion_strategy_offsets ⟨some .smart, none⟩
    ⟨some ⟨2024, 3, 1⟩, none, none, [⟨⟨2024, 3, 10⟩, none⟩]⟩
    ⟨2024, 3, 15⟩ ⟨2024, 3, 10⟩ (by decide)

namespace OFXReader

/-- One account of a parsed OFX file, as `try_parse` probes it (the default
`account_number_field` is `account_id`). -/
structure OFXAccount where
  account_id : String
deriving DecidableEq, Repr

/-- Models `OFXReader.match_account_number`: exact equality. -/
def match_account_number (file_account config_account : String) : Bool :=
  file_account == config_account

/-- The account-selection loop of `try_parse`: every matching account
overwrites `self.ofx_account`, which starts as `None`. -/
def matchLoop (accounts : List OFXAccount) (num : String) :
    Option OFXAccount :=
  accounts.foldl
    (fun acc a => if match_account_number a.account_id num then some a else acc)
    none

/-- Models `OFXReader.try_parse`.  `parsed = none` models an
`ofxparse.OfxParserException` (caught, `False` returned).  Otherwise the loop
reads `self.config["account_number"]` — a `KeyError` if the key is absent and
there is at least one account — and afterwards
`self.ofx_account.statement.currency` raises `AttributeError` when no account
matched (`self.ofx_account` is still `None`). -/
def try_parse (config_account_number : Option String)
    (parsed : Option (List OFXAccount)) : Except PyError Bool :=
  match parsed with
  | none => .ok false
  | some accounts =>
      if accounts ≠ [] ∧ config_account_number = none then .error .keyError
      else
        match matchLoop accounts (config_account_number.getD "") with
        | none => .error .attributeError
        | some _acc => .ok true

end OFXReader

/-- C8 (code bug): when an OFX file parses successfully but no account
matches the configured account number — or no account number is configured —
`try_parse` does not return `False`: it raises (`AttributeError` from
`None.statement`, or `KeyError` from the missing config key), contradicting
its own docstring ("True if the file was successfully parsed, False
otherwise") and the recognition-failure contract.  Only a parse failure is
handled as a clean `False`. -/
theorem try_parse_unmatched_account_raises :
    OFXReader.try_parse (some "999") (some [⟨"123"⟩]) =
      .error .attributeError ∧
    OFXReader.try_parse none (some [⟨"123"⟩]) = .error .keyError ∧
    OFXReader.try_parse (some "999") none = .ok false :=
  ⟨rfl, rfl, rfl⟩

/-! ## `CSVReader.date` and Python attribute resolution:
`src/readers/csv_reader.py` and `src/readers/reader.py` -/

/-- The attributes defined on the `Reader` base class
(`src/readers/reader.py`). -/
def readerClassAttrs : List String :=
  ["FILE_EXTS", "IMPORTER_NAME", "__init__", "get_transactions", "date",
   "read_file", "try_parse", "identify", "filename", "account",
   "get_balance_statement", "get_balance_positions",
   "get_balance_assertion_date", "get_available_cash"]

/-- The attributes defined on the `CSVReader` class
(`src/readers/csv_reader.py`). -/
def csvReaderClassAttrs : List String :=
  ["FILE_EXTS", "__init__", "try_parse", "date", "prepare_raw_file",
   "fix_column_names", "prepare_processed_table", "convert_columns",
   "read_raw", "skip_until_main_table", "extract_table_with_header",
   "skip_until_row_contains", "read_file", "get_transactions",
   "skip_transaction", "get_balance_assertion_date",
   "get_max_transaction_date", "get_row_by_label"]

/-- The attributes defined on the `OFXReader` class
(`src/readers/ofx_reader.py`). -/
def ofxReaderClassAttrs : List String :=
  ["FILE_EXTS", "ofx", "ofx_account", "currency", "__init__", "try_parse",
   "match_account_number", "date", "read_file", "get_transactions",
   "get_balance_statement", "get_balance_positions", "get_available_cash",
   "get_ofx_end_date", "get_smart_date", "get_balance_assertion_date",
   "get_max_transaction_date", "_fudged_date"]

/-- Python attribute resolution on a `CSVReader` instance: the method is
found on `CSVReader` or, failing that, on `Reader` (then `ABC`/`object`,
which define none of the names of interest). -/
def csvReaderResolvesAttr (name : String) : Bool :=
  csvReaderClassAttrs.contains name || readerClassAttrs.contains name

/-- Models `CSVReader.date(file)`: its first statement is `self.initialize(file)`,
an attribute lookup on the instance; if the name resolves, the remaining
body computes `max(ot.date for ot in self.get_transactions()).date()` on the
typed rows of the file (raising `ValueError` on an empty sequence). -/
def CSVReader_date (opts : CSVReaderOptions) (rows : List OTRow) :
    Except PyError Date :=
  if csvReaderResolvesAttr "initialize" then
    match (get_transactions opts rows).map OTRow.date with
    | [] => .error .valueError
    | d :: ds => .ok (pyMaxDate d ds)
  else .error .attributeError

/-- C9: `CSVReader.date` raises `AttributeError` on every input before
returning: no class in `CSVReader`'s inheritance chain defines
`initialize`, and no reader class defines the `initialize_reader` that the
importer-level `initialize` would call, so the public date operation can
never return a date. -/
theorem csv_reader_date_always_attribute_error :
    (∀ (opts : CSVReaderOptions) (rows : List OTRow),
      CSVReader_date opts rows = .error .attributeError) ∧
    csvReaderResolvesAttr "initialize" = false ∧
    (readerClassAttrs ++ csvReaderClassAttrs ++ ofxReaderClassAttrs).contains
      "initialize_reader" = false := by
  have h : csvReaderResolvesAttr "initialize" = false := by decide
  refine ⟨?_, h, by decide⟩
  intro opts rows
  unfold CSVReader_date
  rw [h]
  rfl

/-! ## Amount parsing: `CSVReader.convert_columns`
(`remove_non_numeric` + `beancount.core.number.D`) -/

/-- Python `decimal.Decimal`, faithfully: a signed coefficient and a decimal
exponent; the represented value is `mantissa / 10 ^ exp`. -/
structure PyDecimal where
  mantissa : Int
  exp : Nat
deriving DecidableEq, Repr

/-- The exact rational value of a decimal. -/
def PyDecimal.toRat (d : PyDecimal) : Rat :=
  (d.mantissa : Rat) / (10 : Rat) ^ d.exp

/-- Exact `Decimal` addition: align exponents, add coefficients. -/
def PyDecimal.add (x y : PyDecimal) : PyDecimal :=
  ⟨x.mantissa * 10 ^ (max x.exp y.exp - x.exp) +
     y.mantissa * 10 ^ (max x.exp y.exp - y.exp),
   max x.exp y.exp⟩

/-- Exact `Decimal` subtraction. -/
def PyDecimal.sub (x y : PyDecimal) : PyDecimal :=
  ⟨x.mantissa * 10 ^ (max x.exp y.exp - x.exp) -
     y.mantissa * 10 ^ (max x.exp y.exp - y.exp),
   max x.exp y.exp⟩

/-- The whitespace characters of Python `str.strip()`. -/
def isPySpace (c : Char) : Bool :=
  c == ' ' || c == '\t' || c == '\n' || c == '\r' || c == '\x0B' || c == '\x0C'

/-- Models `str.strip()`: drop whitespace from both ends. -/
def pyStrip (cs : List Char) : List Char :=
  ((cs.dropWhile isPySpace).reverse.dropWhile isPySpace).reverse

/-- The character class kept by `re.sub(r"[^0-9\.-]", "", ·)`. -/
def keepNumChar (c : Char) : Bool :=
  c.isDigit || c == '.' || c == '-'

/-- Models `remove_non_numeric` (inside `convert_columns`): strip whitespace, then
delete every character that is not a digit, a dot, or a minus sign —
including thousands/decimal commas. -/
def remove_non_numeric (s : String) : String :=
  String.mk ((pyStrip s.data).filter keepNumChar)

/-- Base-10 value of a digit string. -/
def digitsToNat (cs : List Char) : Nat :=
  cs.foldl (fun a c => 10 * a + (c.toNat - 48)) 0

/-- Models `decimal.Decimal(s)` on an unsigned literal: digits, then optionally a
dot and more digits; at least one digit overall.  The coefficient keeps
every digit and the exponent counts the fractional digits. -/
def parseUnsignedDecimal (cs : List Char) : Option PyDecimal :=
  match cs.dropWhile Char.isDigit with
  | [] =>
      if (cs.takeWhile Char.isDigit).isEmpty then none
      else some ⟨(digitsToNat (cs.takeWhile Char.isDigit) : Int), 0⟩
  | '.' :: frac =>
      if frac.all Char.isDigit &&
          (!(cs.takeWhile Char.isDigit).isEmpty || !frac.isEmpty) then
        some ⟨(digitsToNat (cs.takeWhile Char.isDigit) : Int) *
            10 ^ frac.length + (digitsToNat frac : Int), frac.length⟩
      else none
  | _ => none

/-- Models `decimal.Decimal(s)` including an optional leading minus sign. -/
def parseDecimalLiteral : List Char → Option PyDecimal
  | c :: rest =>
      if c = '-' then
        (parseUnsignedDecimal rest).map (fun d => ⟨-d.mantissa, d.exp⟩)
      else parseUnsignedDecimal (c :: rest)
  | [] => parseUnsignedDecimal []

/-- Models `beancount.core.number.D` on a string: falsy input gives `None`,
otherwise commas are stripped and the remainder is parsed as a `Decimal`
(`None` models the raised conversion error for invalid literals). -/
def D_string (s : String) : Option PyDecimal :=
  if s = "" then none
  else parseDecimalLiteral (s.data.filter (fun c => !(c == ',')))

/-- The amount-column conversion of `convert_columns`:
`rdr.convert(col, remove_non_numeric)` followed by `rdr.convert(col, D)`. -/
def convertAmount (s : String) : Option PyDecimal :=
  D_string (remove_non_numeric s)

/-- C2 counterexample: the two separator conventions do not parse to the
same value: commas are deleted rather than interpreted, so `"1.234,56"`
parses to the exact decimal 1.23456 and `"1234,56"` to 123456 — neither
equal to each other nor to the claimed 1234.56. -/
theorem convert_amount_comma_counterexample :
    convertAmount "1.234,56" = some ⟨123456, 5⟩ ∧
    convertAmount "1234,56" = some ⟨123456, 0⟩ ∧
    (⟨123456, 5⟩ : PyDecimal).toRat ≠ (⟨123456, 0⟩ : PyDecimal).toRat ∧
    (⟨123456, 5⟩ : PyDecimal).toRat ≠ (123456 / 100 : Rat) ∧
    (⟨123456, 0⟩ : PyDecimal).toRat ≠ (123456 / 100 : Rat) := by
  refine ⟨by decide, by decide, ?_, ?_, ?_⟩ <;> norm_num [PyDecimal.toRat]

lemma dropWhile_eq_self_of_all {p : Char → Bool} (l : List Char)
    (h : ∀ c ∈ l, p c = false) : l.dropWhile p = l := by
  cases l with
  | nil => rfl
  | cons c cs =>
      rw [List.dropWhile_cons, h c (List.mem_cons_self c cs)]
      simp

lemma pyStrip_eq_self (l : List Char) (h : ∀ c ∈ l, isPySpace c = false) :
    pyStrip l = l := by
  unfold pyStrip
  rw [dropWhile_eq_self_of_all l h,
    dropWhile_eq_self_of_all l.reverse
      (fun c hc => h c (List.mem_reverse.mp hc)),
    List.reverse_reverse]

lemma takeWhile_append_stop {p : Char → Bool} (a : List Char) (x : Char)
    (r : List Char) (ha : ∀ c ∈ a, p c = true) (hx : p x = false) :
    (a ++ x :: r).takeWhile p = a := by
  induction a with
  | nil => simp [List.takeWhile_cons, hx]
  | cons c cs ih =>
      have hc := ha c (List.mem_cons_self _ _)
      simp [List.takeWhile_cons, hc,
        ih (fun d hd => ha d (List.mem_cons_of_mem _ hd))]

lemma dropWhile_append_stop {p : Char → Bool} (a : List Char) (x : Char)
    (r : List Char) (ha : ∀ c ∈ a, p c = true) (hx : p x = false) :
    (a ++ x :: r).dropWhile p = x :: r := by
  induction a with
  | nil => simp [List.dropWhile_cons, hx]
  | cons c cs ih =>
      have hc := ha c (List.mem_cons_self _ _)
      simp [List.dropWhile_cons, hc,
        ih (fun d hd => ha d (List.mem_cons_of_mem _ hd))]

lemma isPySpace_of_isDigit (c : Char) (h : c.isDigit = true) :
    isPySpace c = false := by
  rcases Bool.eq_false_or_eq_true (isPySpace c) with ht | hf
  · exfalso
    have hmem : ((((c = ' ' ∨ c = '\t') ∨ c = '\n') ∨ c = '\r') ∨
        c = '\x0B') ∨ c = '\x0C' := by
      simpa [isPySpace, Bool.or_eq_true, beq_iff_eq] using ht
    rcases hmem with ((((rfl | rfl) | rfl) | rfl) | rfl) | rfl <;>
      exact absurd h (by decide)
  · exact hf

lemma not_comma_of_isDigit (c : Char) (h : c.isDigit = true) :
    (!(c == ',')) = true := by
  have hne : c ≠ ',' := by
    intro heq
    subst heq
    exact absurd h (by decide)
  simp [hne]

lemma isDigit_ne_minus (c : Char) (h : c.isDigit = true) : c ≠ '-' := by
  intro heq
  subst heq
  exact absurd h (by decide)

lemma parseDecimalLiteral_cons_of_ne (c : Char) (l : List Char)
    (h : c ≠ '-') :
    parseDecimalLiteral (c :: l) = parseUnsignedDecimal (c :: l) := by
  rw [parseDecimalLiteral, if_neg h]

lemma parseUnsignedDecimal_digits_dot (a b : List Char)
    (ha : ∀ c ∈ a, Char.isDigit c = true) (hb : b.all Char.isDigit = true)
    (hane : a ≠ []) :
    parseUnsignedDecimal (a ++ '.' :: b) =
      some ⟨(digitsToNat a : Int) * 10 ^ b.length + (digitsToNat b : Int),
        b.length⟩ := by
  unfold parseUnsignedDecimal
  rw [dropWhile_append_stop a '.' b ha (by decide),
    takeWhile_append_stop a '.' b ha (by decide)]
  have hemp : a.isEmpty = false := by
    cases a with
    | nil => exact absurd rfl hane
    | cons c cs => rfl
  simp [hb, hemp]

/-- C2 amended: amount parsing deletes separators other than the dot and
parses the remainder with exact decimal arithmetic — so dot-as-decimal
strings parse to their exact decimal value (and decimal addition and
subtraction are exact), but comma-as-decimal strings are misparsed because
commas are stripped, not interpreted. -/
theorem convert_amount_dot_exact (a b : List Char)
    (ha : a.all Char.isDigit = true) (hb : b.all Char.isDigit = true)
    (hane : a ≠ []) :
    (convertAmount (String.mk (a ++ '.' :: b)) =
      some ⟨(digitsToNat a : Int) * 10 ^ b.length + (digitsToNat b : Int),
        b.length⟩ ∧
      (⟨(digitsToNat a : Int) * 10 ^ b.length + (digitsToNat b : Int),
        b.length⟩ : PyDecimal).toRat =
        (digitsToNat a : Rat) + (digitsToNat b : Rat) / (10 : Rat) ^ b.length) ∧
    (∀ x y : PyDecimal, (x.add y).toRat = x.toRat + y.toRat) ∧
    (∀ x y : PyDecimal, (x.sub y).toRat = x.toRat - y.toRat) := by
  have ha' : ∀ c ∈ a, Char.isDigit c = true := List.all_eq_true.mp ha
  have hb' : ∀ c ∈ b, Char.isDigit c = true := List.all_eq_true.mp hb
  have hEk : ∀ (m : Int) (e E : Nat), e ≤ E →
      ((m : Rat) * 10 ^ (E - e)) / 10 ^ E = (m : Rat) / 10 ^ e := by
    intro m e E he
    rw [div_eq_div_iff (pow_ne_zero _ (by norm_num))
      (pow_ne_zero _ (by norm_num)), mul_assoc, ← pow_add]
    have hsum : E - e + e = E := by omega
    rw [hsum]
  refine ⟨⟨?_, ?_⟩, ?_, ?_⟩
  · unfold convertAmount remove_non_numeric D_string
    have hdata : (String.mk (a ++ '.' :: b)).data = a ++ '.' :: b := rfl
    rw [hdata]
    have hnospace : ∀ c ∈ a ++ '.' :: b, isPySpace c = false := by
      intro c hc
      rcases List.mem_append.mp hc with h | h
      · exact isPySpace_of_isDigit c (ha' c h)
      · rcases List.mem_cons.mp h with rfl | h2
        · decide
        · exact isPySpace_of_isDigit c (hb' c h2)
    rw [pyStrip_eq_self _ hnospace]
    have hkeep : (a ++ '.' :: b).filter keepNumChar = a ++ '.' :: b := by
      apply List.filter_eq_self.mpr
      intro c hc
      rcases List.mem_append.mp hc with h | h
      · simp [keepNumChar, ha' c h]
      · rcases List.mem_cons.mp h with rfl | h2
        · decide
        · simp [keepNumChar, hb' c h2]
    rw [hkeep]
    have hne0 : ¬ (String.mk (a ++ '.' :: b) = "") := by
      intro h
      have hd := congrArg String.data h
      simp at hd
    rw [if_neg hne0, hdata]
    have hnocomma : (a ++ '.' :: b).filter (fun c => !(c == ',')) =
        a ++ '.' :: b := by
      apply List.filter_eq_self.mpr
      intro c hc
      rcases List.mem_append.mp hc with h | h
      · exact not_comma_of_isDigit c (ha' c h)
      · rcases List.mem_cons.mp h with rfl | h2
        · decide
        · exact not_comma_of_isDigit c (hb' c h2)
    rw [hnocomma]
    cases a with
    | nil => exact absurd rfl hane
    | cons c cs =>
        rw [List.cons_append, parseDecimalLiteral_cons_of_ne c (cs ++ '.' :: b)
          (isDigit_ne_minus c (ha' c (List.mem_cons_self _ _))), ← List.cons_append,
          parseUnsignedDecimal_digits_dot (c :: cs) b ha' hb hane]
  · unfold PyDecimal.toRat
    dsimp only
    push_cast
    rw [add_div, mul_div_assoc, div_self (pow_ne_zero _ (by norm_num)),
      mul_one]
  · intro x y
    unfold PyDecimal.add PyDecimal.toRat
    dsimp only
    push_cast
    rw [add_div, hEk x.mantissa x.exp (max x.exp y.exp) (le_max_left _ _),
      hEk y.mantissa y.exp (max x.exp y.exp) (le_max_right _ _)]
  · intro x y
    unfold PyDecimal.sub PyDecimal.toRat
    dsimp only
    push_cast
    rw [sub_div, hEk x.mantissa x.exp (max x.exp y.exp) (le_max_left _ _),
      hEk y.mantissa y.exp (max x.exp y.exp) (le_max_right _ _)]

/-- Witness for C2 (amended): `"1234.56"` parses to the exact decimal
1234.56 (coefficient 123456, two fractional digits). -/
theorem convert_amount_dot_exact_witness :
    convertAmount (String.mk (['1', '2', '3', '4'] ++ '.' :: ['5', '6'])) =
      some ⟨(digitsToNat ['1', '2', '3', '4'] : Int) *
        10 ^ (['5', '6'].length) + (digitsToNat ['5', '6'] : Int),
        ['5', '6'].length⟩ ∧
    convertAmount "1234.56" = some ⟨123456, 2⟩ :=
  ⟨(convert_amount_dot_exact ['1', '2', '3', '4'] ['5', '6']
      (by decide) (by decide) (by decide)).1.1,
   by decide⟩
